import Mathlib

/-!
Shallow embedding of `src/app.py` (doclingo): a Flask app that extracts text
blocks with bounding boxes from a PDF, sends page text to a remote model for
translation or structured-entity extraction, aligns translated lines back onto
the original bounding boxes by position, and rebuilds a redacted/translated PDF.

The PDF library (PyMuPDF / fitz) and the remote model (Gemini) are external
collaborators: a parsed document is modelled as the data the code reads from it
(per-page raw blocks, page text, page dimensions), the model as a function
`String → String`, and `json.loads` as a function `String → Option String`
(`none` = `json.JSONDecodeError`).  Side effects that the claims talk about
(model calls, redactions, text insertions, file writes) are recorded in an
explicit effect trace.  Bounding-box coordinates are only ever passed through
unchanged, so they are carried as rationals.
-/

namespace Doclingo

/-- A bounding box: the four coordinates `(x0, y0, x1, y1)` of a text block,
in the PDF library's native page coordinate space. -/
abbrev Bbox := Rat × Rat × Rat × Rat

/-- One raw block as returned by `page.get_text("blocks")` in
`extract_text_with_positions` (src/app.py line 94 destructures
`x0, y0, x1, y1, text, *_`; the trailing tuple entries are discarded there). -/
structure RawBlock where
  x0 : Rat
  y0 : Rat
  x1 : Rat
  y1 : Rat
  text : String
deriving DecidableEq

/-- The `{"bbox": (x0, y0, x1, y1), "text": text}` dict built by
`extract_text_with_positions` and consumed by the alignment loop and
`rebuild_pdf_with_translation`. -/
structure Item where
  bbox : Bbox
  text : String
deriving DecidableEq

/-- Default `Item`, used only as the out-of-range default of `List.getD`. -/
def dItem : Item := { bbox := (0, 0, 0, 0), text := "" }

/-- One page of a parsed PDF document, holding exactly the data the code reads
from a `fitz` page: its raw blocks (`page.get_text("blocks")`), its plain text
(`page.get_text()`), and its dimensions. -/
structure Page where
  blocks : List RawBlock
  text : String
  width : Rat
  height : Rat
deriving DecidableEq

/-- Default `Page`, used only as the out-of-range default of `List.getD`. -/
def dPage : Page := { blocks := [], text := "", width := 0, height := 0 }

/-- A parsed PDF document as seen through `fitz.open`. -/
structure PdfDoc where
  pages : List Page
deriving DecidableEq

/-- One page of the rebuilt output PDF: its dimensions together with the
redactions and text insertions applied to it by
`rebuild_pdf_with_translation`.  `fitz` redaction and text insertion do not
change page geometry, so the dimensions are those of the input page. -/
structure OutPage where
  width : Rat
  height : Rat
  redactions : List Bbox
  insertions : List ((Rat × Rat) × String)
deriving DecidableEq

/-- Default `OutPage`, used only as the out-of-range default of `List.getD`. -/
def dOutPage : OutPage := { width := 0, height := 0, redactions := [], insertions := [] }

/-- Observable side effects of the handler that the claims talk about. -/
inductive Effect where
  | geminiCall (prompt : String)
  | writeFile (name : String) (content : String)
  | addRedact (page : Nat) (bbox : Bbox)
  | applyRedactions (page : Nat)
  | insertText (page : Nat) (pos : Rat × Rat) (text : String)
  | docSave (name : String)
  | zipWrite (arcname : String)
deriving DecidableEq

/-- Request-terminating failures of the handler.  `documentParse` is the
spec's name for the exception `fitz.open` raises on unparseable input;
`modelResponseFormat` the spec's name for `json.JSONDecodeError` escaping
`json.loads`; `indexError` a Python `IndexError`
(`translated_texts[page_num]` out of range). -/
inductive Err where
  | documentParse
  | modelResponseFormat
  | indexError
deriving DecidableEq

/-- What the route returns to the caller: a file download (`send_file`, by
file name) or the rendered index page (`render_template("index.html",
languages=LANGUAGES)`). -/
inductive Response where
  | sendFile (name : String)
  | renderIndex (languages : List String)
deriving DecidableEq

/-- HTTP method of the request. -/
inductive Method where
  | get
  | post
deriving DecidableEq

/-- The POST form fields the handler reads: `request.form.get
("target_language", "en")` and `request.form.get("mode")` (src/app.py lines
127-128); `none` models an absent field. -/
structure PostForm where
  target_language : Option String
  mode : Option String
deriving DecidableEq

/-- Process environment of one request: the `LANGUAGES` list loaded from
`languages.json` (src/app.py lines 23-24), the remote model
(`call_gemini`), `json.loads`, and the result of parsing the uploaded file
as a PDF (`none` = unparseable). -/
structure Env where
  languages : List String
  gemini : String → String
  json_loads : String → Option String
  pdf : Option PdfDoc

/-- Whitespace characters stripped by Python's `str.strip()` (ASCII range). -/
def pyIsSpace (c : Char) : Bool :=
  c = ' ' || c = '\t' || c = '\n' || c = '\r' || c = '\x0b' || c = '\x0c'

/-- Python `str.strip()`: drop leading and trailing whitespace. -/
def pyStrip (s : String) : String :=
  String.mk (((s.toList.dropWhile pyIsSpace).reverse.dropWhile pyIsSpace).reverse)

/-- Split a character list at every newline.  Always returns at least one
(possibly empty) segment, like Python's `str.split` with an explicit
separator. -/
def splitNlChars (cs : List Char) : List (List Char) :=
  match cs with
  | [] => [[]]
  | c :: rest =>
    match splitNlChars rest with
    | [] => [[]]
    | h :: t => if c = '\n' then [] :: h :: t else (c :: h) :: t

/-- Python `translated_text.split("\n")` (src/app.py lines 154 and 179):
split on every newline, keeping empty segments; the empty string yields
`[""]`. -/
def pySplitNl (s : String) : List String :=
  (splitNlChars s.toList).map String.mk

/-- The `prompt_json` template of src/app.py lines 29-57, with the target
language and document text substituted as the f-string does. -/
def prompt_json (text : String) (target_language : String) : String :=
  "\nPlease analyze the following document text.\n\nInstructions:\n1. Detect the original language automatically.\n2. Translate all text into "
    ++ target_language
    ++ ".\n3. Provide the result in this exact JSON format (valid JSON, no extra text outside the JSON):\n\n\x7b\n  \"doc_type\": \"auto-detected document type (e.g., invoice, contract, letter, etc.)\",\n  \"metadata\": \x7b\n    \"detected_language\": \"ISO language code (e.g., \x27ja\x27, \x27zh\x27, \x27ko\x27, \x27en\x27)\",\n    \"confidence\": float_between_0_and_1\n  \x7d,\n  \"entities\": \x7b\n    // Extract all identifiable information as key-value pairs\n    // Use descriptive keys written in "
    ++ target_language
    ++ "\n  \x7d,\n  \"full_translated_text\": \"Full translation of the document in "
    ++ target_language
    ++ "\"\n\x7d\n\n4. Preserve numbers, dates, and currency formats exactly as in the original.\n5. If any content is unreadable, replace it with \"[unreadable]\".\n6. Include all readable information from the document without summarizing or omitting.\n\nDocument text:\n"
    ++ text
    ++ "\n"

/-- The `prompt_translate` template of src/app.py lines 59-74, with the target
language and document text substituted as the f-string does. -/
def prompt_translate (text : String) (target_language : String) : String :=
  "\nYou are a professional document translator.\n\nInstructions:\n1. Detect the original language automatically.\n2. Translate the entire document into "
    ++ target_language
    ++ ".\n3. Maintain the original document\x27s formatting exactly:\n   - Keep the same page structure, fonts, sizes, and spacing.\n   - Preserve images, tables, charts, and any non-text elements.\n   - Keep numbers, dates, and currency values exactly as in the original.\n4. Only translate text; do not alter non-text elements.\n\nDocument text:\n"
    ++ text
    ++ "\n"

/-- `extract_text_with_positions` (src/app.py lines 87-98): per page, keep the
blocks whose text strips to non-empty, as `{"bbox": (x0,y0,x1,y1), "text":
text}` items, in extraction order. -/
def extract_text_with_positions (doc : PdfDoc) : List (List Item) :=
  doc.pages.map fun page =>
    (page.blocks.filter fun b => pyStrip b.text != "").map fun b =>
      { bbox := (b.x0, b.y0, b.x1, b.y1), text := b.text }

/-- The `for i, item in enumerate(page_items)` alignment loop of src/app.py
lines 156-160, with `i` the running index: pair block `i` with
`split_translations[i] if i < len(split_translations) else item["text"]`. -/
def alignGo (page_items : List Item) (split_translations : List String) (i : Nat) : List Item :=
  match page_items with
  | [] => []
  | item :: rest =>
    { bbox := item.bbox
      text := if i < split_translations.length then split_translations.getD i "" else item.text }
      :: alignGo rest split_translations (i + 1)

/-- The Line Aligner (src/app.py lines 154-160): split the translated text on
`"\n"` exactly as Python's `translated_text.split("\n")` does, then align by
position. -/
def alignPage (page_items : List Item) (translated_text : String) : List Item :=
  alignGo page_items (pySplitNl translated_text) 0

/-- The per-page translation loop shared verbatim by the `pdf` and `both`
branches (src/app.py lines 151-161 and 176-186): join each page's block texts
with `"\n"`, call the model with `prompt_translate`, and align the reply;
returns the aligned pages together with the model-call trace. -/
def translate_pages (gemini : String → String) (pages_data : List (List Item))
    (target_language : String) : List (List Item) × List Effect :=
  (pages_data.map fun page_items =>
      alignPage page_items
        (gemini (prompt_translate (String.intercalate "\n" (page_items.map Item.text))
          target_language)),
   pages_data.map fun page_items =>
      Effect.geminiCall (prompt_translate (String.intercalate "\n" (page_items.map Item.text))
        target_language))

/-- The page loop of `rebuild_pdf_with_translation` (src/app.py lines
102-117), with `pageNum` the running `enumerate` index: per page, add a
redaction annotation for every item's bbox, apply the redactions, then insert
every item's text at the bbox's top-left corner.  `translated_texts[page_num]`
with too few pages raises `IndexError`, modelled as `none` (the effects
already performed are kept in the trace). -/
def rebuildGo (pages : List Page) (translated_texts : List (List Item)) (pageNum : Nat) :
    Option (List OutPage) × List Effect :=
  match pages, translated_texts with
  | [], _ => (some [], [])
  | _ :: _, [] => (none, [])
  | page :: restPages, page_items :: restTexts =>
    let redactEffs := page_items.map fun item => Effect.addRedact pageNum item.bbox
    let insertEffs := page_items.map fun item =>
      Effect.insertText pageNum (item.bbox.1, item.bbox.2.1) item.text
    let outPage : OutPage :=
      { width := page.width
        height := page.height
        redactions := page_items.map Item.bbox
        insertions := page_items.map fun item => ((item.bbox.1, item.bbox.2.1), item.text) }
    let rest := rebuildGo restPages restTexts (pageNum + 1)
    (rest.1.map (outPage :: ·),
     redactEffs ++ (Effect.applyRedactions pageNum :: (insertEffs ++ rest.2)))

/-- `rebuild_pdf_with_translation` (src/app.py lines 100-118): run the page
loop over the document, then `doc.save(output_path)` if no exception was
raised. -/
def rebuild_pdf_with_translation (doc : PdfDoc) (translated_texts : List (List Item))
    (output_name : String) : Option (List OutPage) × List Effect :=
  let r := rebuildGo doc.pages translated_texts 0
  match r.1 with
  | some outPages => (some outPages, r.2 ++ [Effect.docSave output_name])
  | none => (none, r.2)

/-- The whole-document text read of src/app.py lines 135-138:
`text = ""` then `text += page.get_text()` for each page. -/
def doc_all_text (doc : PdfDoc) : String :=
  String.join (doc.pages.map Page.text)

/-- The `index` route (src/app.py lines 123-198).  Returns the request's
outcome (a response, or the error that terminated it with no file delivered)
together with the trace of observable effects, in program order. -/
def index (env : Env) (method : Method) (form : PostForm) :
    Except Err Response × List Effect :=
  match method with
  | .get => (.ok (.renderIndex env.languages), [])
  | .post =>
    let target_language := form.target_language.getD "en"
    match env.pdf with
    | none => (.error .documentParse, [])
    | some doc =>
      let text := doc_all_text doc
      if form.mode = some "json" then
        let prompt := prompt_json text target_language
        let gemini_output := env.gemini prompt
        match env.json_loads gemini_output with
        | none => (.error .modelResponseFormat, [Effect.geminiCall prompt])
        | some json_data =>
          (.ok (.sendFile "output.json"),
           [Effect.geminiCall prompt, Effect.writeFile "output.json" json_data])
      else if form.mode = some "pdf" then
        let pages_data := extract_text_with_positions doc
        let tp := translate_pages env.gemini pages_data target_language
        let r := rebuild_pdf_with_translation doc tp.1 "translated.pdf"
        match r.1 with
        | some _ => (.ok (.sendFile "translated.pdf"), tp.2 ++ r.2)
        | none => (.error .indexError, tp.2 ++ r.2)
      else if form.mode = some "both" then
        let prompt := prompt_json text target_language
        let gemini_output := env.gemini prompt
        match env.json_loads gemini_output with
        | none => (.error .modelResponseFormat, [Effect.geminiCall prompt])
        | some json_data =>
          let jsonEffs := [Effect.geminiCall prompt, Effect.writeFile "output.json" json_data]
          let pages_data := extract_text_with_positions doc
          let tp := translate_pages env.gemini pages_data target_language
          let r := rebuild_pdf_with_translation doc tp.1 "translated.pdf"
          match r.1 with
          | some _ =>
            (.ok (.sendFile "result.zip"),
             jsonEffs ++ tp.2 ++ r.2
               ++ [Effect.zipWrite "output.json", Effect.zipWrite "translated.pdf"])
          | none => (.error .indexError, jsonEffs ++ tp.2 ++ r.2)
      else
        (.ok (.renderIndex env.languages), [])

/-! ## Helper predicates on effects -/

/-- The page an effect acts on, if any. -/
def Effect.pageOf : Effect → Option Nat
  | .addRedact p _ => some p
  | .applyRedactions p => some p
  | .insertText p _ _ => some p
  | _ => none

/-- Whether an effect is a text insertion on page `p`. -/
def isInsertOn (p : Nat) : Effect → Bool
  | .insertText q _ _ => p == q
  | _ => false

/-- Whether an effect is a redaction step (adding a redaction annotation or
applying the page's redactions) on page `p`. -/
def isRedactOn (p : Nat) : Effect → Bool
  | .addRedact q _ => p == q
  | .applyRedactions q => p == q
  | _ => false

/-- Relation on a pair of trace positions (earlier effect `a`, later effect
`b`): if `a` is an insertion on some page, `b` is not a redaction step on
that same page.  A trace is pairwise in this relation exactly when no
insertion on a page precedes a redaction step on the same page. -/
def NoInsertBeforeRedact (a b : Effect) : Prop :=
  ∀ p, isInsertOn p a = true → isRedactOn p b = false

/-! ## Concrete fixtures used by witnesses and counterexamples -/

/-- Concrete blocks used by the aligner witnesses: two blocks with texts
"A" and "B". -/
def itemsW : List Item :=
  [{ bbox := (0, 0, 2, 1), text := "A" }, { bbox := (0, 1, 2, 2), text := "B" }]

/-- Concrete one-page document for the extractor witness: one block with
real text, one whitespace-only block. -/
def docC3 : PdfDoc :=
  { pages := [{ blocks := [{ x0 := 0, y0 := 0, x1 := 2, y1 := 1, text := "A" },
                           { x0 := 0, y0 := 1, x1 := 2, y1 := 2, text := " \n" }]
                text := "A \n", width := 612, height := 792 }] }

/-- Concrete one-page document used by handler and rebuilder witnesses. -/
def docW : PdfDoc :=
  { pages := [{ blocks := [{ x0 := 0, y0 := 0, x1 := 2, y1 := 1, text := "A" }]
                text := "A", width := 612, height := 792 }] }

/-- Concrete per-page translated items for the rebuilder witnesses. -/
def tpW : List (List Item) :=
  [[{ bbox := (0, 0, 2, 1), text := "Bonjour" }]]

/-- The output pages `rebuild_pdf_with_translation docW tpW` produces. -/
def outW : List OutPage :=
  [{ width := 612, height := 792, redactions := [(0, 0, 2, 1)],
     insertions := [((0, 0), "Bonjour")] }]

/-- Environment whose model reply parses as JSON and whose file parses as a
PDF. -/
def envOk : Env :=
  { languages := ["English", "French"]
    gemini := fun _ => "model-reply"
    json_loads := fun _ => some "parsed"
    pdf := some docW }

/-- Environment whose model reply does not parse as JSON. -/
def envBad : Env :=
  { languages := ["English"]
    gemini := fun _ => "not json"
    json_loads := fun _ => none
    pdf := some docW }

/-- Environment whose uploaded file is not parseable as a PDF. -/
def envNoPdf : Env :=
  { languages := ["English"]
    gemini := fun _ => "x"
    json_loads := fun _ => some "y"
    pdf := none }

/-- Form requesting mode `json` with a target language outside every
allow-list used in the fixtures. -/
def formKlingonJson : PostForm := { target_language := some "Klingon", mode := some "json" }

/-- Form requesting mode `json`. -/
def formJson : PostForm := { target_language := some "fr", mode := some "json" }

/-- Form requesting mode `pdf`. -/
def formPdf : PostForm := { target_language := some "fr", mode := some "pdf" }

/-- Form requesting mode `both`. -/
def formBoth : PostForm := { target_language := some "fr", mode := some "both" }

/-- Form whose mode is none of the three recognized values. -/
def formUnknown : PostForm := { target_language := none, mode := some "zzz" }

/-! ## Lemmas about the Line Aligner -/

theorem alignGo_length (page_items : List Item) (lines : List String) :
    ∀ k : Nat, (alignGo page_items lines k).length = page_items.length := by
  induction page_items with
  | nil => intro k; rfl
  | cons item rest ih => intro k; simp [alignGo, ih (k + 1)]

theorem alignGo_getD (page_items : List Item) (lines : List String) :
    ∀ (k i : Nat), i < page_items.length →
      (alignGo page_items lines k).getD i dItem =
        { bbox := (page_items.getD i dItem).bbox
          text := if k + i < lines.length then lines.getD (k + i) ""
                  else (page_items.getD i dItem).text } := by
  induction page_items with
  | nil => intro k i h; simp at h
  | cons item rest ih =>
    intro k i h
    cases i with
    | zero => simp [alignGo]
    | succ j =>
      have hj : j < rest.length := by simpa using h
      have hk : k + 1 + j = k + (j + 1) := by omega
      simpa [alignGo, hk] using ih (k + 1) j hj

theorem alignPage_length (page_items : List Item) (translated_text : String) :
    (alignPage page_items translated_text).length = page_items.length :=
  alignGo_length page_items (pySplitNl translated_text) 0

theorem alignPage_getD (page_items : List Item) (translated_text : String)
    (i : Nat) (h : i < page_items.length) :
    (alignPage page_items translated_text).getD i dItem =
      { bbox := (page_items.getD i dItem).bbox
        text := if i < (pySplitNl translated_text).length
                then (pySplitNl translated_text).getD i ""
                else (page_items.getD i dItem).text } := by
  simpa using alignGo_getD page_items (pySplitNl translated_text) 0 i h

/-! ## C1 -/

/-- C1: the Line Aligner pairs by position.  For every block sequence and
translated string, the output has the same length as the input; at each index
`i` below the block count the output keeps block `i`'s bounding box, its text
is translated line `i` when that line exists, and otherwise block `i`'s own
original text — in particular `aligned[i].text = original[i].text` for every
`i ≥ len(translated_lines)`. -/
theorem C1_line_aligner_positional (page_items : List Item) (translated_text : String)
    (i : Nat) (h : i < page_items.length) :
    (alignPage page_items translated_text).length = page_items.length ∧
    ((alignPage page_items translated_text).getD i dItem).bbox
      = (page_items.getD i dItem).bbox ∧
    (i < (pySplitNl translated_text).length →
      ((alignPage page_items translated_text).getD i dItem).text
        = (pySplitNl translated_text).getD i "") ∧
    ((pySplitNl translated_text).length ≤ i →
      ((alignPage page_items translated_text).getD i dItem).text
        = (page_items.getD i dItem).text) := by
  refine ⟨alignPage_length page_items translated_text, ?_, ?_, ?_⟩
  · rw [alignPage_getD page_items translated_text i h]
  · intro hlt
    rw [alignPage_getD page_items translated_text i h]
    simp [hlt]
  · intro hge
    rw [alignPage_getD page_items translated_text i h]
    simp [Nat.not_lt.mpr hge]

/-- Witness for C1 at `itemsW`, translated text `"Hello"`, index 1: the
single translated line runs out and block 1 keeps its own text. -/
theorem C1_line_aligner_positional_witness :
    1 < itemsW.length ∧
    ((alignPage itemsW "Hello").length = itemsW.length ∧
     ((alignPage itemsW "Hello").getD 1 dItem).bbox = (itemsW.getD 1 dItem).bbox ∧
     (1 < (pySplitNl "Hello").length →
       ((alignPage itemsW "Hello").getD 1 dItem).text = (pySplitNl "Hello").getD 1 "") ∧
     ((pySplitNl "Hello").length ≤ 1 →
       ((alignPage itemsW "Hello").getD 1 dItem).text = (itemsW.getD 1 dItem).text)) :=
  ⟨by decide, C1_line_aligner_positional itemsW "Hello" 1 (by decide)⟩

/-! ## C2 -/

/-- C2 counterexample: the claim that every `TranslatedBlock` produced by the
aligner carries a non-blank text string is false.  With a single block whose
text "A" is non-blank (trimmed) and translated text `""` — whose split is the
one blank line `[""]` — the aligner pairs block 0 with the blank line, so a
produced block does receive a blank replacement string. -/
theorem C2_never_blank_counterexample :
    (∀ it ∈ [({ bbox := (0, 0, 2, 1), text := "A" } : Item)], pyStrip it.text ≠ "") ∧
    (0 : Nat) < (pySplitNl "").length ∧
    ((alignPage [({ bbox := (0, 0, 2, 1), text := "A" } : Item)] "").getD 0 dItem).text
      = "" := by
  exact ⟨by decide, by decide, rfl⟩

/-- C2 as amended: blocks beyond the available translated lines retain their
original text, which — since every extracted block's text strips to non-empty
— is never a blank; a block within the translated range receives translated
line `i` verbatim, blank or not (not covered by the invariant). -/
theorem C2_fallback_never_blank (page_items : List Item) (translated_text : String)
    (i : Nat)
    (hall : ∀ it ∈ page_items, pyStrip it.text ≠ "")
    (hi : i < page_items.length)
    (hline : (pySplitNl translated_text).length ≤ i) :
    ((alignPage page_items translated_text).getD i dItem).text
      = (page_items.getD i dItem).text ∧
    pyStrip ((alignPage page_items translated_text).getD i dItem).text ≠ "" := by
  have htext : ((alignPage page_items translated_text).getD i dItem).text
      = (page_items.getD i dItem).text := by
    rw [alignPage_getD page_items translated_text i hi]
    simp [Nat.not_lt.mpr hline]
  refine ⟨htext, ?_⟩
  rw [htext]
  have hmem : page_items.getD i dItem ∈ page_items := by
    rw [List.getD_eq_getElem page_items dItem hi]
    exact List.getElem_mem hi
  exact hall _ hmem

/-- Witness for C2's amended theorem at `itemsW`, translated text `"Hello"`,
index 1. -/
theorem C2_fallback_never_blank_witness :
    (∀ it ∈ itemsW, pyStrip it.text ≠ "") ∧ 1 < itemsW.length ∧
    (pySplitNl "Hello").length ≤ 1 ∧
    (((alignPage itemsW "Hello").getD 1 dItem).text = (itemsW.getD 1 dItem).text ∧
     pyStrip ((alignPage itemsW "Hello").getD 1 dItem).text ≠ "") :=
  ⟨by decide, by decide, by decide,
   C2_fallback_never_blank itemsW "Hello" 1 (by decide) (by decide) (by decide)⟩

/-! ## C3 -/

/-- C3: the Text Extractor's contract.  The extractor returns one block list
per page, in document order (same length, page `i` built from page `i`).
Every emitted item comes from a raw block of that page with its four
coordinates and text passed through unchanged, and a raw block of the page is
represented in the output exactly when its text strips to non-empty. -/
theorem C3_extractor_contract (doc : PdfDoc) (i : Nat) (h : i < doc.pages.length) :
    (extract_text_with_positions doc).length = doc.pages.length ∧
    (∀ it ∈ (extract_text_with_positions doc).getD i [],
       ∃ b ∈ (doc.pages.getD i dPage).blocks,
         it.bbox = (b.x0, b.y0, b.x1, b.y1) ∧ it.text = b.text) ∧
    (∀ b ∈ (doc.pages.getD i dPage).blocks,
       (pyStrip b.text ≠ "" ↔
         ({ bbox := (b.x0, b.y0, b.x1, b.y1), text := b.text } : Item)
           ∈ (extract_text_with_positions doc).getD i [])) := by
  have hlen : (extract_text_with_positions doc).length = doc.pages.length :=
    List.length_map _ _
  have hpage : (extract_text_with_positions doc).getD i []
      = ((doc.pages.getD i dPage).blocks.filter fun b => pyStrip b.text != "").map
          (fun b => { bbox := (b.x0, b.y0, b.x1, b.y1), text := b.text }) := by
    rw [List.getD_eq_getElem _ _ (hlen ▸ h), List.getD_eq_getElem _ _ h]
    simp [extract_text_with_positions]
  refine ⟨hlen, ?_, ?_⟩
  · intro it hit
    rw [hpage] at hit
    obtain ⟨b, hb, rfl⟩ := List.mem_map.mp hit
    exact ⟨b, (List.mem_filter.mp hb).1, rfl, rfl⟩
  · intro b hb
    constructor
    · intro hne
      rw [hpage]
      exact List.mem_map_of_mem _ (List.mem_filter.mpr ⟨hb, by simpa using hne⟩)
    · intro hmem
      rw [hpage] at hmem
      obtain ⟨b2, hb2, heq⟩ := List.mem_map.mp hmem
      have htext : b2.text = b.text := congrArg Item.text heq
      have := (List.mem_filter.mp hb2).2
      rw [htext] at this
      simpa using this

/-- Witness for C3 at `docC3`, page 0. -/
theorem C3_extractor_contract_witness :
    0 < docC3.pages.length ∧
    ((extract_text_with_positions docC3).length = docC3.pages.length ∧
     (∀ it ∈ (extract_text_with_positions docC3).getD 0 [],
        ∃ b ∈ (docC3.pages.getD 0 dPage).blocks,
          it.bbox = (b.x0, b.y0, b.x1, b.y1) ∧ it.text = b.text) ∧
     (∀ b ∈ (docC3.pages.getD 0 dPage).blocks,
        (pyStrip b.text ≠ "" ↔
          ({ bbox := (b.x0, b.y0, b.x1, b.y1), text := b.text } : Item)
            ∈ (extract_text_with_positions docC3).getD 0 []))) :=
  ⟨by decide, C3_extractor_contract docC3 0 (by decide)⟩

/-! ## Lemmas about the PDF Rebuilder -/

theorem pairwiseOfForallMem {α : Type} {R : α → α → Prop} :
    ∀ {l : List α}, (∀ a ∈ l, ∀ b ∈ l, R a b) → l.Pairwise R := by
  intro l
  induction l with
  | nil => intro _; exact List.Pairwise.nil
  | cons x xs ih =>
    intro h
    constructor
    · intro b hb
      exact h x (List.mem_cons_self x xs) b (List.mem_cons_of_mem x hb)
    · exact ih fun a ha b hb =>
        h a (List.mem_cons_of_mem x ha) b (List.mem_cons_of_mem x hb)

theorem isRedactOn_pageOf {p : Nat} {e : Effect} (h : isRedactOn p e = true) :
    e.pageOf = some p := by
  cases e <;> simp [isRedactOn] at h <;> simp [Effect.pageOf, h]

theorem rebuildGo_pageOf (pages : List Page) :
    ∀ (tp : List (List Item)) (k : Nat) (e : Effect),
      e ∈ (rebuildGo pages tp k).2 → ∃ m, k ≤ m ∧ e.pageOf = some m := by
  induction pages with
  | nil => intro tp k e he; simp [rebuildGo] at he
  | cons page rest ih =>
    intro tp k e he
    cases tp with
    | nil => simp [rebuildGo] at he
    | cons items restT =>
      simp only [rebuildGo] at he
      rcases List.mem_append.mp he with h1 | h1
      · obtain ⟨it, _, rfl⟩ := List.mem_map.mp h1
        exact ⟨k, Nat.le_refl k, rfl⟩
      · rcases List.mem_cons.mp h1 with rfl | h2
        · exact ⟨k, Nat.le_refl k, rfl⟩
        · rcases List.mem_append.mp h2 with h3 | h3
          · obtain ⟨it, _, rfl⟩ := List.mem_map.mp h3
            exact ⟨k, Nat.le_refl k, rfl⟩
          · obtain ⟨m, hm, hp⟩ := ih restT (k + 1) e h3
            exact ⟨m, Nat.le_of_succ_le hm, hp⟩

theorem rebuildGo_pairwise (pages : List Page) :
    ∀ (tp : List (List Item)) (k : Nat),
      (rebuildGo pages tp k).2.Pairwise NoInsertBeforeRedact := by
  induction pages with
  | nil => intro tp k; simp [rebuildGo]
  | cons page rest ih =>
    intro tp k
    cases tp with
    | nil => simp [rebuildGo]
    | cons items restT =>
      simp only [rebuildGo]
      rw [List.pairwise_append]
      refine ⟨?_, ?_, ?_⟩
      · refine pairwiseOfForallMem fun a ha b _ => ?_
        obtain ⟨it, _, rfl⟩ := List.mem_map.mp ha
        intro p hp
        simp [isInsertOn] at hp
      · rw [List.pairwise_cons]
        constructor
        · intro b _ p hp
          simp [isInsertOn] at hp
        · rw [List.pairwise_append]
          refine ⟨?_, ih restT (k + 1), ?_⟩
          · refine pairwiseOfForallMem fun a _ b hb => ?_
            obtain ⟨it, _, rfl⟩ := List.mem_map.mp hb
            intro p _
            simp [isRedactOn]
          · intro a ha b hb p hp
            obtain ⟨m, hm, hpage⟩ := rebuildGo_pageOf rest restT (k + 1) b hb
            obtain ⟨it, _, rfl⟩ := List.mem_map.mp ha
            have hpk : p = k := by simpa [isInsertOn] using hp
            by_contra hred
            have hred2 : isRedactOn p b = true := by
              revert hred; cases isRedactOn p b <;> simp
            have hpg := isRedactOn_pageOf hred2
            rw [hpg] at hpage
            have : p = m := by injection hpage
            omega
      · intro a ha b _ p hp
        obtain ⟨it, _, rfl⟩ := List.mem_map.mp ha
        simp [isInsertOn] at hp

theorem rebuildGo_mem_redact (pages : List Page) :
    ∀ (tp : List (List Item)) (k n : Nat) (it : Item),
      n < pages.length → n < tp.length → it ∈ tp.getD n [] →
      Effect.addRedact (k + n) it.bbox ∈ (rebuildGo pages tp k).2 ∧
      Effect.applyRedactions (k + n) ∈ (rebuildGo pages tp k).2 := by
  induction pages with
  | nil => intro tp k n it hn _ _; simp at hn
  | cons page rest ih =>
    intro tp k n it hn htp hit
    cases tp with
    | nil => simp at htp
    | cons items restT =>
      cases n with
      | zero =>
        simp only [List.getD_cons_zero] at hit
        constructor
        · simp only [rebuildGo, Nat.add_zero]
          exact List.mem_append_left _ (List.mem_map_of_mem _ hit)
        · simp only [rebuildGo, Nat.add_zero]
          exact List.mem_append_right _ (List.mem_cons_self _ _)
      | succ m =>
        have hm : m < rest.length := by simpa using hn
        have hmt : m < restT.length := by simpa using htp
        have hit2 : it ∈ restT.getD m [] := by simpa using hit
        obtain ⟨h1, h2⟩ := ih restT (k + 1) m it hm hmt hit2
        have hk : k + 1 + m = k + (m + 1) := by omega
        rw [hk] at h1 h2
        constructor
        · simp only [rebuildGo]
          exact List.mem_append_right _
            (List.mem_cons_of_mem _ (List.mem_append_right _ h1))
        · simp only [rebuildGo]
          exact List.mem_append_right _
            (List.mem_cons_of_mem _ (List.mem_append_right _ h2))

theorem rebuildGo_out (pages : List Page) :
    ∀ (tp : List (List Item)) (k : Nat) (out : List OutPage),
      (rebuildGo pages tp k).1 = some out →
      out.length = pages.length ∧
      ∀ i, i < pages.length →
        (out.getD i dOutPage).width = (pages.getD i dPage).width ∧
        (out.getD i dOutPage).height = (pages.getD i dPage).height := by
  induction pages with
  | nil =>
    intro tp k out h
    simp only [rebuildGo] at h
    have hout : out = [] := by simpa using h.symm
    subst hout
    exact ⟨rfl, fun i hi => by simp at hi⟩
  | cons page rest ih =>
    intro tp k out h
    cases tp with
    | nil => simp [rebuildGo] at h
    | cons items restT =>
      simp only [rebuildGo, Option.map_eq_some'] at h
      obtain ⟨out2, hrec, rfl⟩ := h
      obtain ⟨hlen, hdims⟩ := ih restT (k + 1) out2 hrec
      refine ⟨by simp [hlen], ?_⟩
      intro i hi
      cases i with
      | zero => simp
      | succ m =>
        have hm : m < rest.length := by simpa using hi
        simpa using hdims m hm

theorem rebuildGo_isSome (pages : List Page) :
    ∀ (tp : List (List Item)) (k : Nat), pages.length ≤ tp.length →
      ∃ out, (rebuildGo pages tp k).1 = some out := by
  induction pages with
  | nil => intro tp k _; exact ⟨[], rfl⟩
  | cons page rest ih =>
    intro tp k hlen
    cases tp with
    | nil => simp at hlen
    | cons items restT =>
      obtain ⟨out, hout⟩ := ih restT (k + 1) (by simpa using hlen)
      refine ⟨{ width := page.width, height := page.height,
                redactions := items.map Item.bbox,
                insertions := items.map fun item =>
                  ((item.bbox.1, item.bbox.2.1), item.text) } :: out, ?_⟩
      simp only [rebuildGo]
      rw [hout]
      rfl

theorem rebuild_eq_some {doc : PdfDoc} {tp : List (List Item)} {output_name : String}
    {out : List OutPage} (h : (rebuildGo doc.pages tp 0).1 = some out) :
    rebuild_pdf_with_translation doc tp output_name =
      (some out, (rebuildGo doc.pages tp 0).2 ++ [Effect.docSave output_name]) := by
  simp only [rebuild_pdf_with_translation]
  rw [h]

theorem rebuild_eq_none {doc : PdfDoc} {tp : List (List Item)} {output_name : String}
    (h : (rebuildGo doc.pages tp 0).1 = none) :
    rebuild_pdf_with_translation doc tp output_name =
      (none, (rebuildGo doc.pages tp 0).2) := by
  simp only [rebuild_pdf_with_translation]
  rw [h]

/-! ## C5 -/

/-- C5: on any page of the rebuild, every translated item's bounding box gets
a redaction annotation and the page's redactions get applied, and the rebuild
trace never places an insertion before a redaction step on the same page:
redaction on a page is complete before insertion on that page begins. -/
theorem C5_redact_before_insert (doc : PdfDoc) (tp : List (List Item))
    (output_name : String) (n : Nat) (it : Item)
    (hn : n < doc.pages.length) (htp : n < tp.length) (hit : it ∈ tp.getD n []) :
    Effect.addRedact n it.bbox ∈ (rebuild_pdf_with_translation doc tp output_name).2 ∧
    Effect.applyRedactions n ∈ (rebuild_pdf_with_translation doc tp output_name).2 ∧
    (rebuild_pdf_with_translation doc tp output_name).2.Pairwise NoInsertBeforeRedact := by
  obtain ⟨h1, h2⟩ := rebuildGo_mem_redact doc.pages tp 0 n it hn htp hit
  rw [Nat.zero_add] at h1 h2
  have hpw : (rebuildGo doc.pages tp 0).2.Pairwise NoInsertBeforeRedact :=
    rebuildGo_pairwise doc.pages tp 0
  cases hout : (rebuildGo doc.pages tp 0).1 with
  | none => rw [rebuild_eq_none hout]; exact ⟨h1, h2, hpw⟩
  | some outPages =>
    rw [rebuild_eq_some hout]
    refine ⟨List.mem_append_left _ h1, List.mem_append_left _ h2, ?_⟩
    rw [List.pairwise_append]
    refine ⟨hpw, List.pairwise_singleton _ _, ?_⟩
    intro a _ b hb p _
    simp only [List.mem_singleton] at hb
    subst hb
    simp [isRedactOn]

/-- Witness for C5 at the one-page fixture `docW`, `tpW`, page 0. -/
theorem C5_redact_before_insert_witness :
    0 < docW.pages.length ∧ 0 < tpW.length ∧
    ({ bbox := (0, 0, 2, 1), text := "Bonjour" } : Item) ∈ tpW.getD 0 [] ∧
    (Effect.addRedact 0 ({ bbox := (0, 0, 2, 1), text := "Bonjour" } : Item).bbox
       ∈ (rebuild_pdf_with_translation docW tpW "translated.pdf").2 ∧
     Effect.applyRedactions 0
       ∈ (rebuild_pdf_with_translation docW tpW "translated.pdf").2 ∧
     (rebuild_pdf_with_translation docW tpW "translated.pdf").2.Pairwise
       NoInsertBeforeRedact) :=
  ⟨by decide, by decide, by decide,
   C5_redact_before_insert docW tpW "translated.pdf" 0 _ (by decide) (by decide) (by decide)⟩

/-! ## C6 -/

/-- C6: whenever the rebuilder produces an output document, the output has
exactly as many pages as the input and every output page has the dimensions
of the corresponding input page. -/
theorem C6_rebuild_frame (doc : PdfDoc) (tp : List (List Item)) (output_name : String)
    (out : List OutPage)
    (h : (rebuild_pdf_with_translation doc tp output_name).1 = some out) :
    out.length = doc.pages.length ∧
    ∀ i, i < doc.pages.length →
      (out.getD i dOutPage).width = (doc.pages.getD i dPage).width ∧
      (out.getD i dOutPage).height = (doc.pages.getD i dPage).height := by
  have h2 : (rebuildGo doc.pages tp 0).1 = some out := by
    cases hout : (rebuildGo doc.pages tp 0).1 with
    | none => rw [rebuild_eq_none hout] at h; simp at h
    | some o =>
      rw [rebuild_eq_some hout] at h
      exact h
  exact rebuildGo_out doc.pages tp 0 out h2

/-- Witness for C6 at the one-page fixture `docW`, `tpW`. -/
theorem C6_rebuild_frame_witness :
    (rebuild_pdf_with_translation docW tpW "translated.pdf").1 = some outW ∧
    (outW.length = docW.pages.length ∧
     ∀ i, i < docW.pages.length →
       (outW.getD i dOutPage).width = (docW.pages.getD i dPage).width ∧
       (outW.getD i dOutPage).height = (docW.pages.getD i dPage).height) :=
  ⟨by decide, C6_rebuild_frame docW tpW "translated.pdf" outW (by decide)⟩

/-! ## C9 -/

/-- C9: if the uploaded bytes cannot be parsed as a PDF, every POST request
terminates with `DocumentParseError` and an empty effect trace: no model
call, no partial extraction result, and no output file of any kind. -/
theorem C9_document_parse_failure (env : Env) (form : PostForm)
    (hpdf : env.pdf = none) :
    index env .post form = (.error .documentParse, []) := by
  simp only [index, hpdf]

/-- Witness for C9 at `envNoPdf`, `formPdf`. -/
theorem C9_document_parse_failure_witness :
    envNoPdf.pdf = none ∧
    index envNoPdf .post formPdf = (.error .documentParse, []) :=
  ⟨rfl, C9_document_parse_failure envNoPdf formPdf rfl⟩

/-! ## C8 -/

/-- C8: in mode `json` (the spec's structured mode), if the model's reply
does not parse as JSON the request terminates with
`ModelResponseFormatError` and the trace is exactly one model call: the
error is surfaced, no output file is written, and the model is not retried. -/
theorem C8_json_parse_failure (env : Env) (form : PostForm) (doc : PdfDoc)
    (hpdf : env.pdf = some doc) (hmode : form.mode = some "json")
    (hfail : env.json_loads (env.gemini (prompt_json (doc_all_text doc)
      (form.target_language.getD "en"))) = none) :
    index env .post form =
      (.error .modelResponseFormat,
       [Effect.geminiCall (prompt_json (doc_all_text doc)
          (form.target_language.getD "en"))]) := by
  simp only [index, hpdf, hmode]
  rw [hfail]
  simp

/-- Witness for C8 at `envBad`, `formJson`. -/
theorem C8_json_parse_failure_witness :
    envBad.pdf = some docW ∧ formJson.mode = some "json" ∧
    envBad.json_loads (envBad.gemini (prompt_json (doc_all_text docW)
      (formJson.target_language.getD "en"))) = none ∧
    index envBad .post formJson =
      (.error .modelResponseFormat,
       [Effect.geminiCall (prompt_json (doc_all_text docW)
          (formJson.target_language.getD "en"))]) :=
  ⟨rfl, rfl, rfl, C8_json_parse_failure envBad formJson docW rfl rfl rfl⟩

/-! ## C10 -/

/-- C10 counterexample: the claim that an unrecognized mode always yields the
rendered index page with no error is false: with an unparseable PDF and mode
"zzz", the request terminates with `DocumentParseError` (from the initial
text read, which runs before the mode dispatch), not with the index page. -/
theorem C10_unknown_mode_counterexample :
    (formUnknown.mode ≠ some "json" ∧ formUnknown.mode ≠ some "pdf" ∧
     formUnknown.mode ≠ some "both") ∧
    index envNoPdf .post formUnknown = (.error .documentParse, []) ∧
    ∀ L, (index envNoPdf .post formUnknown).1 ≠ .ok (.renderIndex L) := by
  refine ⟨by decide, rfl, ?_⟩
  intro L h
  exact Except.noConfusion
    ((rfl : (index envNoPdf .post formUnknown).1
        = Except.error Err.documentParse).symm.trans h)

/-- C10 as amended: provided the uploaded file parses as a PDF (so the
initial text read succeeds), a POST whose mode is none of `json`, `pdf`,
`both` performs no model call and no rebuild, produces no output file and no
error, and returns the rendered index page — the same response as a GET. -/
theorem C10_unknown_mode_falls_through (env : Env) (form : PostForm) (doc : PdfDoc)
    (hpdf : env.pdf = some doc)
    (h1 : form.mode ≠ some "json") (h2 : form.mode ≠ some "pdf")
    (h3 : form.mode ≠ some "both") :
    index env .post form = (.ok (.renderIndex env.languages), []) ∧
    index env .post form = index env .get form := by
  have hpost : index env .post form = (.ok (.renderIndex env.languages), []) := by
    simp only [index, hpdf]
    rw [if_neg h1, if_neg h2, if_neg h3]
  exact ⟨hpost, hpost⟩

/-- Witness for C10's amended theorem at `envOk`, `formUnknown`. -/
theorem C10_unknown_mode_falls_through_witness :
    envOk.pdf = some docW ∧ formUnknown.mode ≠ some "json" ∧
    formUnknown.mode ≠ some "pdf" ∧ formUnknown.mode ≠ some "both" ∧
    (index envOk .post formUnknown = (.ok (.renderIndex envOk.languages), []) ∧
     index envOk .post formUnknown = index envOk .get formUnknown) :=
  ⟨rfl, by decide, by decide, by decide,
   C10_unknown_mode_falls_through envOk formUnknown docW rfl (by decide) (by decide)
     (by decide)⟩

/-! ## C4 -/

/-- C4 counterexample: the claim that the target language is validated
against the allow-list before the pipeline runs is false.  With allow-list
`["English", "French"]`, a request whose target language "Klingon" is not in
the allow-list is processed with that language anyway: the model is called
with a prompt built from "Klingon" and a file is delivered. -/
theorem C4_validation_counterexample :
    ("Klingon" ∈ envOk.languages → False) ∧
    index envOk .post formKlingonJson =
      (.ok (.sendFile "output.json"),
       [Effect.geminiCall (prompt_json (doc_all_text docW) "Klingon"),
        Effect.writeFile "output.json" "parsed"]) := by
  exact ⟨by decide, rfl⟩

/-- C4 as amended: the target language is taken from the form (default "en")
and passed into the model prompts with no validation against the allow-list;
the handler's pipeline behaviour is independent of the allow-list, which is
only used to render the index page. -/
theorem C4_language_unvalidated (env : Env) (form : PostForm) (doc : PdfDoc)
    (L : List String) (hpdf : env.pdf = some doc)
    (hmode : form.mode = some "json" ∨ form.mode = some "pdf" ∨
      form.mode = some "both") :
    index { env with languages := L } .post form = index env .post form ∧
    (form.mode = some "json" →
      (index env .post form).2.head? =
        some (Effect.geminiCall
          (prompt_json (doc_all_text doc) (form.target_language.getD "en")))) := by
  constructor
  · rcases hmode with h | h | h <;> simp [index, hpdf, h]
  · intro hm
    simp only [index, hpdf, hm]
    cases hjl : env.json_loads (env.gemini (prompt_json (doc_all_text doc)
        (form.target_language.getD "en"))) <;>
      simp [hjl]

/-- Witness for C4's amended theorem at `envOk`, `formKlingonJson`, allow-list
`["Zulu"]`. -/
theorem C4_language_unvalidated_witness :
    envOk.pdf = some docW ∧
    (formKlingonJson.mode = some "json" ∨ formKlingonJson.mode = some "pdf" ∨
      formKlingonJson.mode = some "both") ∧
    (index { envOk with languages := ["Zulu"] } .post formKlingonJson
        = index envOk .post formKlingonJson ∧
     (formKlingonJson.mode = some "json" →
       (index envOk .post formKlingonJson).2.head? =
         some (Effect.geminiCall
           (prompt_json (doc_all_text docW)
             (formKlingonJson.target_language.getD "en"))))) :=
  ⟨rfl, Or.inl rfl,
   C4_language_unvalidated envOk formKlingonJson docW ["Zulu"] rfl (Or.inl rfl)⟩

/-! ## C7 -/

/-- C7: `both` mode atomicity.  If the structured branch fails (the model's
reply does not parse as JSON), the whole request terminates with
`ModelResponseFormatError` and the trace is one model call: no JSON file is
written, no PDF is saved, and no archive is built.  If the structured branch
succeeds, the rebuild branch (whose page counts always agree, so it cannot
raise) runs and the caller receives exactly the single archive
`result.zip`: there is no partial delivery in either case. -/
theorem C7_both_atomicity (env : Env) (form : PostForm) (doc : PdfDoc)
    (hpdf : env.pdf = some doc) (hmode : form.mode = some "both") :
    (env.json_loads (env.gemini (prompt_json (doc_all_text doc)
        (form.target_language.getD "en"))) = none →
      index env .post form =
        (.error .modelResponseFormat,
         [Effect.geminiCall (prompt_json (doc_all_text doc)
            (form.target_language.getD "en"))])) ∧
    (∀ jd, env.json_loads (env.gemini (prompt_json (doc_all_text doc)
        (form.target_language.getD "en"))) = some jd →
      (index env .post form).1 = .ok (.sendFile "result.zip")) := by
  constructor
  · intro hfail
    simp only [index, hpdf, hmode]
    rw [hfail]
    simp
  · intro jd hjd
    have hlen : doc.pages.length ≤
        (translate_pages env.gemini (extract_text_with_positions doc)
          (form.target_language.getD "en")).1.length := by
      simp [translate_pages, extract_text_with_positions]
    obtain ⟨out, hout⟩ := rebuildGo_isSome doc.pages _ 0 hlen
    simp only [index, hpdf, hmode]
    rw [hjd, rebuild_eq_some hout]
    simp

/-- Witness for C7 at `envBad`, `formBoth`. -/
theorem C7_both_atomicity_witness :
    envBad.pdf = some docW ∧ formBoth.mode = some "both" ∧
    ((envBad.json_loads (envBad.gemini (prompt_json (doc_all_text docW)
        (formBoth.target_language.getD "en"))) = none →
      index envBad .post formBoth =
        (.error .modelResponseFormat,
         [Effect.geminiCall (prompt_json (doc_all_text docW)
            (formBoth.target_language.getD "en"))])) ∧
     (∀ jd, envBad.json_loads (envBad.gemini (prompt_json (doc_all_text docW)
        (formBoth.target_language.getD "en"))) = some jd →
      (index envBad .post formBoth).1 = .ok (.sendFile "result.zip"))) :=
  ⟨rfl, rfl, C7_both_atomicity envBad formBoth docW rfl rfl⟩

end Doclingo
